import Mathlib

/-!
Shallow embedding of the godot-mcp-server core (src/utils/godot-utils.ts,
src/godot/operations.ts, src/godot/commands.ts) and proofs about it.

Filesystem reads/writes, the environment, `child_process.exec` and
`JSON.parse` are modelled as explicit parameters (the code only observes
them through these interfaces); machine behaviour of each function is
transcribed from the TypeScript source.
-/

namespace GodotMcp

/-! ## JavaScript primitives used by the source -/

/-- Truthiness of a possibly-undefined JS string: `undefined` and the empty
string are falsy, every other string is truthy. -/
def jsTruthy : Option String → Bool
  | some s => !(s == "")
  | none => false

/-- JS or-with-empty-string on a possibly-undefined string. -/
def orEmpty : Option String → String
  | some s => s
  | none => ""

/-- JS object property assignment on an association list: updating an
existing key replaces its value in place, a new key is appended.  Object
spread `{...a, ...b}` applies this once per property of `b`. -/
def setKey {V : Type} : List (String × V) → String → V → List (String × V)
  | [], k, v => [(k, v)]
  | (k', v') :: rest, k, v =>
    if k' = k then (k, v) :: rest else (k', v') :: setKey rest k v

/-- JS object property lookup on an association list. -/
def getKey {V : Type} : List (String × V) → String → Option V
  | [], _ => none
  | (k', v') :: rest, k => if k' = k then some v' else getKey rest k

/-- Model of node `path.join` for the two-segment uses in this code base. -/
def joinPath (a b : String) : String := a ++ "/" ++ b

/-- JSON-compatible values (the payloads moved between the server and the
bridge script).  Serialisation to file is modelled as storing the value. -/
inductive JsVal : Type where
  | str (s : String)
  | num (n : Int)
  | bool (b : Bool)
  | null
  | arr (elems : List JsVal)
  | obj (fields : List (String × JsVal))

/-! ## Executable Locator (`findGodotPath` in godot-utils.ts) -/

/-- The ambient system facts `findGodotPath` consults: the `GODOT_PATH`
environment variable, `fs.existsSync`, `os.platform()`, and the stdout of
`which godot` (`none` models the command throwing). -/
structure LocEnv : Type where
  godotPathEnv : Option String
  fsExists : String → Bool
  platform : String
  whichStdout : Option String

/-- The `GODOT_PATHS` table keyed by platform, with the JS `|| []` default
for any other platform string. -/
def godotPathsFor (platform : String) : List String :=
  if platform = "darwin" then
    ["/Applications/Godot.app/Contents/MacOS/Godot",
     "/Applications/Godot_4.app/Contents/MacOS/Godot",
     "/Applications/Godot_4.2.app/Contents/MacOS/Godot"]
  else if platform = "linux" then
    ["/usr/bin/godot", "/usr/local/bin/godot"]
  else if platform = "win32" then
    ["C:\\Program Files\\Godot\\Godot.exe",
     "C:\\Program Files (x86)\\Godot\\Godot.exe"]
  else []

/-- Step 1 of `findGodotPath`: `if (process.env.GODOT_PATH) { if
(fs.existsSync(...)) return ... }` — falls through when unset, empty, or
not existing. -/
def envCheck (env : LocEnv) : Option String :=
  match env.godotPathEnv with
  | some p => if p != "" then (if env.fsExists p then some p else none) else none
  | none => none

/-- Step 2 of `findGodotPath`: first existing entry of the platform list. -/
def staticCheck (env : LocEnv) : Option String :=
  (godotPathsFor env.platform).find? env.fsExists

/-- Step 3 of `findGodotPath`: on non-Windows platforms run `which godot`,
trim its stdout, and accept it only when non-empty and existing; a throwing
command (`none`) is swallowed by the try/catch. -/
def whichCheck (env : LocEnv) : Option String :=
  if env.platform != "win32" then
    match env.whichStdout with
    | some out =>
      let godotPath := out.trim
      if godotPath != "" && env.fsExists godotPath then some godotPath else none
    | none => none
  else none

/-- `findGodotPath`: environment override, then static list, then `which`;
`none` (JS `null`) when every strategy is exhausted. -/
def findGodotPath (env : LocEnv) : Option String :=
  match envCheck env with
  | some p => some p
  | none =>
    match staticCheck env with
    | some p => some p
    | none => whichCheck env

/-! ## Process Runner (`runGodotCommand` in godot-utils.ts) -/

/-- The pair of captured streams returned by a run. -/
structure CommandResult : Type where
  stdout : String
  stderr : String
deriving DecidableEq

/-- A rejection of `execAsync`.  `spawned` records whether the child
process actually ran (ghost information the code never inspects); when it
did, node attaches the captured `stdout`/`stderr` strings to the error,
while a spawn-level failure carries no captured streams (`none`). -/
structure ExecError : Type where
  spawned : Bool
  stdout : Option String
  stderr : Option String
deriving DecidableEq

/-- Outcome of one `execAsync` invocation. -/
inductive ExecOutcome : Type where
  | success (stdout stderr : String)
  | failure (e : ExecError)
deriving DecidableEq

/-- The single shell command string built by `runGodotCommand`: the
executable wrapped in double quotes, one space, then the arguments joined
with single spaces — the individual arguments are not quoted. -/
def buildCommand (godotPath : String) (args : List String) : String :=
  "\"" ++ godotPath ++ "\" " ++ String.intercalate " " args

/-- `runGodotCommand(godotPath, args, cwd)`: run the built command through
the shell; on rejection, when the error carries a truthy `stdout` or
`stderr`, return them (or-with-empty-string) as a normal `CommandResult`,
otherwise rethrow. -/
def runGodotCommand (exec : String → Option String → ExecOutcome)
    (godotPath : String) (args : List String) (cwd : Option String) :
    Except ExecError CommandResult :=
  match exec (buildCommand godotPath args) cwd with
  | .success out err => .ok ⟨out, err⟩
  | .failure e =>
    if jsTruthy e.stdout || jsTruthy e.stderr then
      .ok ⟨orEmpty e.stdout, orEmpty e.stderr⟩
    else
      .error e

/-- `isGodotProject`: the project marker file exists. -/
def isGodotProject (fsExists : String → Bool) (projectPath : String) : Bool :=
  fsExists (joinPath projectPath "project.godot")

/-! ## Result extraction (`stdout.match(/{[\s\S]*}/)` and parse in
`runGodotOperation`, operations.ts) -/

/-- The greedy tail of the regex: `[\s\S]*}` consumes through the last
closing brace of the remaining input, failing when none exists.  Returns
the prefix of the list up to and including its last closing brace. -/
def takeToLastClose : List Char → Option (List Char)
  | [] => none
  | c :: rest =>
    match takeToLastClose rest with
    | some tail => some (c :: tail)
    | none => if c = '}' then some [c] else none

/-- The JS regex match `text.match(/{[\s\S]*}/)` on the character list:
the engine tries each start position left to right; at an opening brace
with some closing brace after it, the greedy star extends the match to the
last closing brace of the whole remainder. -/
def matchBraceSpan : List Char → Option (List Char)
  | [] => none
  | c :: rest =>
    if c = '{' then
      match takeToLastClose rest with
      | some tail => some (c :: tail)
      | none => matchBraceSpan rest
    else
      matchBraceSpan rest

/-- String-level wrapper for the regex match. -/
def jsonMatch (s : String) : Option String :=
  (matchBraceSpan s.data).map List.asString

/-- Index of the first opening brace (spec wording for the tie-break
rule). -/
def firstOpen : List Char → Option Nat
  | [] => none
  | c :: rest => if c = '{' then some 0 else (firstOpen rest).map (· + 1)

/-- Index of the last closing brace (spec wording for the tie-break
rule). -/
def lastClose : List Char → Option Nat
  | [] => none
  | c :: rest =>
    match lastClose rest with
    | some j => some (j + 1)
    | none => if c = '}' then some 0 else none

/-- Span stated the way the spec words it: from the first opening brace
through the last closing brace, defined when the former precedes the
latter. -/
def firstToLastSpan (l : List Char) : Option (List Char) :=
  match firstOpen l, lastClose l with
  | some i, some j => if i < j then some ((l.drop i).take (j - i + 1)) else none
  | _, _ => none

/-- Errors thrown out of `runGodotOperation`.  The source wraps both a
missing JSON span and an unparsable span into the single message
`Failed to parse GDScript operation result: <stdout>`, because the
`No JSON found` throw sits inside the same try block as the parse. -/
inductive OpError : Type where
  | godotNotFound
  | spawn (e : ExecError)
  | parseFailed (stdout : String)
deriving DecidableEq

/-- The result-parsing tail of `runGodotOperation`, transcribed with its
try/catch: the inner `No JSON found in output` throw is caught by the
surrounding catch and rethrown as the parse-failure error, so both failure
modes surface identically.  `parse` models `JSON.parse` (`none` = throws). -/
def extractionStep (parse : String → Option JsVal) (stdout : String) :
    Except OpError JsVal :=
  match jsonMatch stdout with
  | some span =>
    match parse span with
    | some j => .ok j
    | none => .error (.parseFailed stdout)
  | none => .error (.parseFailed stdout)

/-- The two failure modes the spec assigns to the Result Extractor. -/
inductive ExtractError : Type where
  | noJsonFound
  | malformedJson
deriving DecidableEq

/-- The Result Extractor as the spec words it (distinct `NoJsonFound` and
`MalformedJson` outcomes), for comparison with `extractionStep`. -/
def specExtract (parse : String → Option JsVal) (text : String) :
    Except ExtractError JsVal :=
  match jsonMatch text with
  | some span =>
    match parse span with
    | some j => .ok j
    | none => .error .malformedJson
  | none => .error .noJsonFound

/-! ## Operation Script Bridge (`initOperationsScript` and
`runGodotOperation` in operations.ts) -/

/-- A flat filesystem: path to stored JSON value (file text is stored as a
`JsVal.str`; `JSON.stringify`/`JSON.parse` of the request file are
abstracted as storing the value itself). -/
structure FS : Type where
  files : List (String × JsVal)

/-- `fs.writeFileSync`. -/
def FS.write (fs : FS) (p : String) (v : JsVal) : FS :=
  ⟨setKey fs.files p v⟩

/-- Read a file. -/
def FS.read (fs : FS) (p : String) : Option JsVal :=
  getKey fs.files p

/-- `fs.unlinkSync`. -/
def FS.remove (fs : FS) (p : String) : FS :=
  ⟨fs.files.filter (fun f => f.1 != p)⟩

/-- The operations-module state: the module-level `gdScriptPath` cache and
the filesystem it writes through. -/
structure OpsState : Type where
  gdScriptPath : Option String
  fs : FS

/-- What one `initOperationsScript` call produced: the returned path, the
state afterwards, and whether this call performed a write. -/
structure InitResult : Type where
  path : String
  state : OpsState
  wrote : Bool

/-- `initOperationsScript`: when the module cache is empty, fix the path
`os.tmpdir()/godot_operations.gd`, write the script content there and
cache the path; otherwise return the cached path untouched.  The fixed
GDScript text is passed in as `content` (the caching logic never inspects
it). -/
def initOperationsScript (tmpdir content : String) (s : OpsState) : InitResult :=
  match s.gdScriptPath with
  | some p => ⟨p, s, false⟩
  | none =>
    let p := joinPath tmpdir "godot_operations.gd"
    ⟨p, { gdScriptPath := some p, fs := s.fs.write p (JsVal.str content) }, true⟩

/-- The object literal `{ operation, projectPath, ...params }`: the two
fixed properties are inserted first and every property of `params` is then
assigned over them in order. -/
def buildOperationData (operation projectPath : String)
    (params : List (String × JsVal)) : List (String × JsVal) :=
  params.foldl (fun acc p => setKey acc p.1 p.2)
    [("operation", JsVal.str operation), ("projectPath", JsVal.str projectPath)]

/-- Ambient facts for one `runGodotOperation` call: the locator
environment, `execAsync`, `JSON.parse`, `os.tmpdir()`, `Date.now()`, the
script content, and whether `fs.unlinkSync` succeeds. -/
structure OpEnv : Type where
  loc : LocEnv
  exec : String → Option String → ExecOutcome
  parse : String → Option JsVal
  tmpdir : String
  now : Nat
  scriptContent : String
  unlinkOk : Bool

/-- The per-call temp request file path: the temp directory joined with
the godot_op_ prefix, the `Date.now()` timestamp, and the .json suffix. -/
def opTempPath (env : OpEnv) : String :=
  joinPath env.tmpdir ("godot_op_" ++ toString env.now ++ ".json")

/-- Everything observable about one `runGodotOperation` call: the returned
or thrown result, the final module state, whether the temp-file unlink was
reached, and the temp path this call used (none when it failed before
creating one). -/
structure OpRun : Type where
  result : Except OpError JsVal
  state : OpsState
  unlinkAttempted : Bool
  tempPath : Option String

/-- `runGodotOperation(projectPath, operation, params)` transcribed
step by step: locate the executable (throw when missing), materialize the
bridge script, build the request object, write it to the timestamped temp
file, run the command; a throwing run propagates before the cleanup line,
otherwise `unlinkSync` is attempted inside its own try/catch (failure
logged, not propagated) and the stdout is parsed. -/
def runGodotOperation (env : OpEnv) (s : OpsState)
    (projectPath operation : String) (params : List (String × JsVal)) : OpRun :=
  match findGodotPath env.loc with
  | none => ⟨.error .godotNotFound, s, false, none⟩
  | some godotPath =>
    let ini := initOperationsScript env.tmpdir env.scriptContent s
    let operationData := buildOperationData operation projectPath params
    let tempJsonPath := opTempPath env
    let s2 : OpsState :=
      { ini.state with fs := ini.state.fs.write tempJsonPath (JsVal.obj operationData) }
    match runGodotCommand env.exec godotPath
        ["--script", ini.path, tempJsonPath] (some projectPath) with
    | .error e => ⟨.error (.spawn e), s2, false, some tempJsonPath⟩
    | .ok cr =>
      let s3 := if env.unlinkOk then { s2 with fs := s2.fs.remove tempJsonPath } else s2
      ⟨extractionStep env.parse cr.stdout, s3, true, some tempJsonPath⟩

/-! ## Session State (`commands.ts`: `initGodot`, `runProject`,
`stopProject`, `getDebugOutput`) -/

/-- A spawned engine process: its pid and whatever mixed stdout/stderr
output its listeners have accumulated so far (the `output += data` local
in `runProject`). -/
structure ProcHandle : Type where
  pid : Nat
  buffer : String
deriving DecidableEq

/-- The commands-module state: the cached executable path, the single
`godotProcess` slot, and (ghost) the pids `kill()` has been called on. -/
structure CmdState : Type where
  godotPath : Option String
  godotProcess : Option ProcHandle
  killed : List Nat
deriving DecidableEq

/-- `initGodot`: resolve and cache the executable path, throwing when the
locator finds nothing. -/
def initGodot (env : LocEnv) (s : CmdState) : Except String (String × CmdState) :=
  match s.godotPath with
  | some p => .ok (p, s)
  | none =>
    match findGodotPath env with
    | some p => .ok (p, { s with godotPath := some p })
    | none => .error "Godot executable not found. Set GODOT_PATH environment variable to your Godot executable."

/-- `stopProject`: no-op report while idle; otherwise `kill()` the process
and null the slot. -/
def stopProject (s : CmdState) : CmdState × String :=
  match s.godotProcess with
  | none => (s, "No Godot project is currently running")
  | some p =>
    ({ s with godotProcess := none, killed := s.killed ++ [p.pid] },
     "Stopped running Godot project")

/-- `runProject`: resolve the executable, validate the project, stop any
already-running process synchronously, then spawn the new one (`h` is the
handle `spawn` returns) into the single slot. -/
def runProject (env : LocEnv) (h : ProcHandle) (projectPath : String)
    (s : CmdState) : Except String (CmdState × String) :=
  match initGodot env s with
  | .error e => .error e
  | .ok (_, s1) =>
    if isGodotProject env.fsExists projectPath then
      let s2 := if s1.godotProcess.isSome then (stopProject s1).1 else s1
      .ok ({ s2 with godotProcess := some h },
           "Running Godot project: " ++ projectPath)
    else
      .error ("Invalid Godot project path: " ++ projectPath)

/-- `getDebugOutput`: idle report when nothing runs; otherwise the source
returns the literal placeholder string, never the buffered output. -/
def getDebugOutput (s : CmdState) : String :=
  match s.godotProcess with
  | none => "No Godot project is currently running"
  | some _ => "Debug output would be shown here"

/-! ## Concrete instances used by counterexamples and witnesses -/

/-- An `execAsync` whose child runs, exits non-zero, and captures nothing
on either stream: the rejection carries the two empty strings node
attaches. -/
def silentFailExec : String → Option String → ExecOutcome :=
  fun _ _ => .failure ⟨true, some "", some ""⟩

/-- An `execAsync` whose child exits non-zero after writing to stdout. -/
def noisyFailExec : String → Option String → ExecOutcome :=
  fun _ _ => .failure ⟨true, some "partial output", some ""⟩

/-- An `execAsync` that resolves normally. -/
def okExec : String → Option String → ExecOutcome :=
  fun _ _ => .success "out" ""

/-- A `JSON.parse` model that always fails (never consulted in the uses
below that have no JSON span). -/
def parseNever : String → Option JsVal := fun _ => none

/-- A `JSON.parse` model that always yields `null`. -/
def parseNull : String → Option JsVal := fun _ => some JsVal.null

/-- A locator environment whose override exists. -/
def locFound : LocEnv :=
  { godotPathEnv := some "/godot", fsExists := fun _ => true,
    platform := "linux", whichStdout := none }

/-- A Linux machine with a dead `GODOT_PATH` override and only
`/usr/bin/godot` present on disk. -/
def locOverrideDead : LocEnv :=
  { godotPathEnv := some "/nope", fsExists := fun s => s == "/usr/bin/godot",
    platform := "linux", whichStdout := none }

/-- Bridge-call environment whose run rejects with no captured output. -/
def opEnvSilentFail : OpEnv :=
  { loc := locFound, exec := silentFailExec, parse := parseNever,
    tmpdir := "/tmp", now := 42, scriptContent := "script", unlinkOk := true }

/-- Bridge-call environment whose run resolves normally. -/
def opEnvOk : OpEnv :=
  { loc := locFound, exec := okExec, parse := parseNever,
    tmpdir := "/tmp", now := 42, scriptContent := "script", unlinkOk := true }

/-- The empty operations-module state. -/
def opsState0 : OpsState := ⟨none, ⟨[]⟩⟩

/-- A session with process 7 running and output accumulated. -/
def cmdRunning : CmdState :=
  { godotPath := some "/godot", godotProcess := some ⟨7, "hello\n"⟩, killed := [] }

/-- An idle session. -/
def cmdIdle : CmdState :=
  { godotPath := some "/godot", godotProcess := none, killed := [] }

/-! ## Helper lemmas -/

theorem getKey_setKey_self {V : Type} (o : List (String × V)) (k : String) (v : V) :
    getKey (setKey o k v) k = some v := by
  induction o with
  | nil => simp [setKey, getKey]
  | cons p rest ih =>
    obtain ⟨k', v'⟩ := p
    by_cases h : k' = k
    · simp [setKey, getKey, h]
    · simp [setKey, getKey, h, ih]

theorem getKey_setKey_ne {V : Type} (o : List (String × V)) (k k' : String) (v : V)
    (h : k ≠ k') : getKey (setKey o k v) k' = getKey o k' := by
  induction o with
  | nil => simp [setKey, getKey, h]
  | cons p rest ih =>
    obtain ⟨k₀, v₀⟩ := p
    by_cases h0 : k₀ = k
    · subst h0
      simp [setKey, getKey, h]
    · simp [setKey, getKey, h0, ih]

theorem getKey_foldl_setKey_not_mem {V : Type} (params : List (String × V))
    (o : List (String × V)) (k : String) (h : ∀ p ∈ params, p.1 ≠ k) :
    getKey (params.foldl (fun acc p => setKey acc p.1 p.2) o) k = getKey o k := by
  induction params generalizing o with
  | nil => rfl
  | cons p rest ih =>
    have hp : p.1 ≠ k := h p (List.mem_cons_self p rest)
    have hr : ∀ q ∈ rest, q.1 ≠ k := fun q hq => h q (List.mem_cons_of_mem p hq)
    simp only [List.foldl_cons]
    rw [ih (setKey o p.1 p.2) hr, getKey_setKey_ne _ _ _ _ hp]

theorem getKey_foldl_setKey_mem {V : Type} (params : List (String × V))
    (o : List (String × V)) (k : String) (v : V)
    (hnd : (params.map Prod.fst).Nodup) (hmem : (k, v) ∈ params) :
    getKey (params.foldl (fun acc p => setKey acc p.1 p.2) o) k = some v := by
  induction params generalizing o with
  | nil => exact absurd hmem (List.not_mem_nil _)
  | cons p rest ih =>
    simp only [List.map_cons, List.nodup_cons] at hnd
    rcases List.mem_cons.mp hmem with hhead | htail
    · subst hhead
      simp only [List.foldl_cons]
      have hr : ∀ q ∈ rest, q.1 ≠ k := by
        intro q hq hq1
        have hmm : q.1 ∈ rest.map Prod.fst := List.mem_map_of_mem Prod.fst hq
        rw [hq1] at hmm
        exact hnd.1 hmm
      rw [getKey_foldl_setKey_not_mem rest _ k hr, getKey_setKey_self]
    · simp only [List.foldl_cons]
      exact ih _ hnd.2 htail

theorem FS.read_write_self (fs : FS) (p : String) (v : JsVal) :
    (fs.write p v).read p = some v :=
  getKey_setKey_self fs.files p v

theorem getKey_filter_ne_self {V : Type} (files : List (String × V)) (p : String) :
    getKey (files.filter fun f => f.1 != p) p = none := by
  induction files with
  | nil => rfl
  | cons f rest ih =>
    obtain ⟨k, v⟩ := f
    by_cases h : k = p
    · simp [List.filter_cons, h, ih]
    · simp [List.filter_cons, h, getKey, ih, bne_iff_ne]

theorem FS.read_remove_self (fs : FS) (p : String) :
    (fs.remove p).read p = none :=
  getKey_filter_ne_self fs.files p

theorem takeToLastClose_eq (l : List Char) :
    takeToLastClose l = (lastClose l).map (fun j => l.take (j + 1)) := by
  induction l with
  | nil => rfl
  | cons c rest ih =>
    simp only [takeToLastClose, lastClose, ih]
    cases h : lastClose rest with
    | none =>
      by_cases hc : c = '}' <;> simp [hc, List.take_succ_cons]
    | some j => simp [List.take_succ_cons]

theorem matchBraceSpan_eq_none_of_lastClose (l : List Char)
    (h : lastClose l = none) : matchBraceSpan l = none := by
  induction l with
  | nil => rfl
  | cons c rest ih =>
    simp only [lastClose] at h
    cases hr : lastClose rest with
    | some j => rw [hr] at h; exact absurd h (by simp)
    | none =>
      rw [hr] at h
      have hc : c ≠ '}' := by
        intro hc; rw [hc] at h; simp at h
      have hrest := ih hr
      simp only [matchBraceSpan, takeToLastClose_eq, hr, Option.map_none]
      by_cases hcb : c = '{' <;> simp [hcb, hrest]

theorem firstToLastSpan_cons_ne (c : Char) (rest : List Char) (hc : c ≠ '{') :
    firstToLastSpan (c :: rest) = firstToLastSpan rest := by
  cases ho : firstOpen rest with
  | none =>
    simp [firstToLastSpan, firstOpen, hc, ho]
  | some i =>
    cases hr : lastClose rest with
    | some j =>
      simp [firstToLastSpan, firstOpen, lastClose, hc, ho, hr,
        Nat.succ_sub_succ, List.drop_succ_cons]
    | none =>
      by_cases hcc : c = '}'
      · simp [firstToLastSpan, firstOpen, lastClose, hc, ho, hr, hcc]
      · simp [firstToLastSpan, firstOpen, lastClose, hc, ho, hr, hcc]

theorem firstToLastSpan_cons_open (rest : List Char) :
    firstToLastSpan ('{' :: rest) =
      (lastClose rest).map (fun j => '{' :: rest.take (j + 1)) := by
  cases hr : lastClose rest with
  | some j =>
    simp [firstToLastSpan, firstOpen, lastClose, hr, List.take_succ_cons]
  | none =>
    simp [firstToLastSpan, firstOpen, lastClose, hr]

theorem matchBraceSpan_eq_firstToLast (l : List Char) :
    matchBraceSpan l = firstToLastSpan l := by
  induction l with
  | nil => rfl
  | cons c rest ih =>
    by_cases hc : c = '{'
    · subst hc
      rw [firstToLastSpan_cons_open]
      cases hr : lastClose rest with
      | some j =>
        simp [matchBraceSpan, takeToLastClose_eq, hr]
      | none =>
        have hnone := matchBraceSpan_eq_none_of_lastClose rest hr
        simp [matchBraceSpan, takeToLastClose_eq, hr, hnone]
    · rw [firstToLastSpan_cons_ne c rest hc, ← ih]
      simp [matchBraceSpan, hc]

theorem initGodot_preserves (env : LocEnv) (s : CmdState) (g : String)
    (s1 : CmdState) (h : initGodot env s = .ok (g, s1)) :
    s1.godotProcess = s.godotProcess ∧ s1.killed = s.killed := by
  unfold initGodot at h
  cases hp : s.godotPath with
  | some p =>
    rw [hp] at h
    simp only [Except.ok.injEq, Prod.mk.injEq] at h
    rw [← h.2]
    exact ⟨rfl, rfl⟩
  | none =>
    rw [hp] at h
    cases hf : findGodotPath env with
    | some p =>
      rw [hf] at h
      simp only [Except.ok.injEq, Prod.mk.injEq] at h
      rw [← h.2]
      exact ⟨rfl, rfl⟩
    | none => rw [hf] at h; exact absurd h (by simp)

/-! ## Claims -/

/-- Claim C1, amended: `runGodotCommand` returns a normal `CommandResult`
carrying the captured streams whenever the rejected exec error carries a
truthy (non-empty) stdout or stderr — in particular for non-zero exits
with output — and it raises exactly when the rejection carries no truthy
captured stream at all.  That covers spawn-level failures, but also a
child that ran and exited non-zero while writing nothing to either
stream, so the raise is not confined to spawn failures as the claim
states. -/
theorem claim_C1 (exec : String → Option String → ExecOutcome) (g : String)
    (args : List String) (cwd : Option String) :
    (∀ e : ExecError, exec (buildCommand g args) cwd = .failure e →
        (jsTruthy e.stdout || jsTruthy e.stderr) = true →
        runGodotCommand exec g args cwd = .ok ⟨orEmpty e.stdout, orEmpty e.stderr⟩)
    ∧ (∀ e : ExecError, runGodotCommand exec g args cwd = .error e →
        exec (buildCommand g args) cwd = .failure e
        ∧ jsTruthy e.stdout = false ∧ jsTruthy e.stderr = false) := by
  constructor
  · intro e he ht
    unfold runGodotCommand
    rw [he]
    simp [ht]
  · intro e he
    unfold runGodotCommand at he
    split at he
    · exact absurd he (by simp)
    · rename_i e' hx
      split at he
      · exact absurd he (by simp)
      · rename_i hb
        simp only [Except.error.injEq] at he
        subst he
        simp only [Bool.or_eq_true, not_or, Bool.not_eq_true] at hb
        exact ⟨hx, hb.1, hb.2⟩

/-- Counterexample to claim C1 as stated: with `silentFailExec` the child
process does run (`spawned = true`, a non-zero exit) but captures only
empty streams, and `runGodotCommand` raises instead of returning a
`CommandResult` — so the call can fail even though the process was
spawned. -/
theorem claim_C1_counterexample :
    runGodotCommand silentFailExec "/usr/bin/godot" ["--version"] none
      = .error ⟨true, some "", some ""⟩
    ∧ (ExecError.mk true (some "") (some "")).spawned = true :=
  ⟨rfl, rfl⟩

/-- Witness for claim C1: a non-zero exit that captured stdout is absorbed
into a normal `CommandResult`. -/
theorem claim_C1_witness :
    runGodotCommand noisyFailExec "/usr/bin/godot" ["--version"] none
      = .ok ⟨"partial output", ""⟩ :=
  (claim_C1 noisyFailExec "/usr/bin/godot" ["--version"] none).1
    ⟨true, some "partial output", some ""⟩ rfl rfl

/-- Claim C2: on the input with no brace-delimited substring the
spec-worded extractor reports `noJsonFound`, but the transcribed code
(`extractionStep`) throws the single parse-failure error for it, because
the inner no-JSON throw sits inside the try block whose catch rewraps
every error as `Failed to parse GDScript operation result` — the two
failure modes are not distinguished by the code. -/
theorem claim_C2 (parse : String → Option JsVal) :
    specExtract parse "no json here" = .error .noJsonFound
    ∧ extractionStep parse "no json here" = .error (.parseFailed "no json here") :=
  ⟨rfl, rfl⟩

/-- Claim C4: while idle the peek reports that nothing is running, but
while running the source returns the constant placeholder string whatever
the buffered output is — it never returns the buffered stream data, so
the running half of the claim fails on the code. -/
theorem claim_C4 :
    getDebugOutput cmdIdle = "No Godot project is currently running"
    ∧ getDebugOutput cmdRunning = "Debug output would be shown here"
    ∧ (∀ h1 h2 : ProcHandle,
        getDebugOutput { cmdRunning with godotProcess := some h1 }
          = getDebugOutput { cmdRunning with godotProcess := some h2 })
    ∧ "Debug output would be shown here" ≠ "hello\n" := by
  refine ⟨rfl, rfl, fun h1 h2 => rfl, ?_⟩
  decide

/-- Claim C10: the runner shell-invokes a single command string that
quotes only the executable and joins arguments with spaces, so the
argument lists `["a b"]` and `["a", "b"]` produce the identical command
string — `runGodotCommand` cannot tell them apart, hence for an argument
containing a space the child cannot receive the argument vector that was
passed. -/
theorem claim_C10 :
    buildCommand "/usr/bin/godot" ["a b"] = buildCommand "/usr/bin/godot" ["a", "b"]
    ∧ (["a b"] : List String) ≠ ["a", "b"]
    ∧ ∀ (exec : String → Option String → ExecOutcome) (cwd : Option String),
        runGodotCommand exec "/usr/bin/godot" ["a b"] cwd
          = runGodotCommand exec "/usr/bin/godot" ["a", "b"] cwd := by
  refine ⟨rfl, by decide, fun exec cwd => rfl⟩

/-- Claim C6: the regex span selected by the code is exactly the span
from the first opening brace through the last closing brace (greedy, not
nested-balanced), and a successful extraction parses exactly that single
span — at most one JSON object is ever extracted. -/
theorem claim_C6 (l : List Char) (parse : String → Option JsVal) :
    matchBraceSpan l = firstToLastSpan l
    ∧ (∀ j : JsVal, extractionStep parse (List.asString l) = .ok j →
        ∃ span, jsonMatch (List.asString l) = some span ∧ parse span = some j) := by
  refine ⟨matchBraceSpan_eq_firstToLast l, ?_⟩
  intro j hj
  unfold extractionStep at hj
  split at hj
  · rename_i span hm
    split at hj
    · rename_i j' hp
      simp only [Except.ok.injEq] at hj
      subst hj
      exact ⟨span, hm, hp⟩
    · exact absurd hj (by simp)
  · exact absurd hj (by simp)

/-- Witness for claim C6: a concrete successful extraction parses the
matched span. -/
theorem claim_C6_witness :
    ∃ span, jsonMatch (List.asString ['{', 'a', '}']) = some span
      ∧ parseNull span = some JsVal.null :=
  (claim_C6 ['{', 'a', '}'] parseNull).2 JsVal.null rfl

/-- Claim C7: in `{ operation, projectPath, ...params }` the fixed fields
are written first and the params spread after them, so a params entry
keyed `operation` or `projectPath` overrides the fixed field in the
request object. -/
theorem claim_C7 (operation projectPath : String)
    (params : List (String × JsVal)) (v : JsVal)
    (hnd : (params.map Prod.fst).Nodup) :
    (("operation", v) ∈ params →
        getKey (buildOperationData operation projectPath params) "operation" = some v)
    ∧ (("projectPath", v) ∈ params →
        getKey (buildOperationData operation projectPath params) "projectPath" = some v) :=
  ⟨fun hm => getKey_foldl_setKey_mem params _ _ v hnd hm,
   fun hm => getKey_foldl_setKey_mem params _ _ v hnd hm⟩

/-- Witness for claim C7: a params entry named `operation` wins over the
fixed operation name. -/
theorem claim_C7_witness :
    getKey (buildOperationData "create_scene" "/proj"
        [("operation", JsVal.str "evil")]) "operation" = some (JsVal.str "evil") :=
  (claim_C7 "create_scene" "/proj" [("operation", JsVal.str "evil")]
      (JsVal.str "evil") (by simp)).1 (by simp)

/-- Claim C3, amended: the temp-file unlink is attempted after every call
in which the Process Runner returns (normally or with an absorbed
non-zero exit), regardless of the later extraction outcome, and a failing
unlink is never propagated — the returned result is the same whether the
unlink succeeds or fails; but when the Process Runner itself raises, the
cleanup line is never reached (there is no try/finally) and the temp
request file persists. -/
theorem claim_C3 (env : OpEnv) (s : OpsState) (projectPath operation : String)
    (params : List (String × JsVal)) (g : String) (cr : CommandResult)
    (hg : findGodotPath env.loc = some g)
    (hr : runGodotCommand env.exec g
        ["--script", (initOperationsScript env.tmpdir env.scriptContent s).path,
         opTempPath env] (some projectPath) = .ok cr) :
    (runGodotOperation env s projectPath operation params).unlinkAttempted = true
    ∧ (env.unlinkOk = true →
        (runGodotOperation env s projectPath operation params).state.fs.read
          (opTempPath env) = none)
    ∧ (runGodotOperation { env with unlinkOk := true } s projectPath operation params).result
      = (runGodotOperation { env with unlinkOk := false } s projectPath operation params).result := by
  have hshape : ∀ b : Bool,
      runGodotOperation { env with unlinkOk := b } s projectPath operation params =
        ⟨extractionStep env.parse cr.stdout,
         (if b then
            { (initOperationsScript env.tmpdir env.scriptContent s).state with
              fs := (((initOperationsScript env.tmpdir env.scriptContent s).state.fs.write
                  (opTempPath env)
                  (JsVal.obj (buildOperationData operation projectPath params))).remove
                (opTempPath env)) }
          else
            { (initOperationsScript env.tmpdir env.scriptContent s).state with
              fs := (initOperationsScript env.tmpdir env.scriptContent s).state.fs.write
                  (opTempPath env)
                  (JsVal.obj (buildOperationData operation projectPath params)) }),
         true, some (opTempPath env)⟩ := by
    intro b
    unfold runGodotOperation
    rw [show findGodotPath ({ env with unlinkOk := b } : OpEnv).loc = some g from hg]
    simp only []
    rw [show runGodotCommand ({ env with unlinkOk := b } : OpEnv).exec g
        ["--script",
         (initOperationsScript ({ env with unlinkOk := b } : OpEnv).tmpdir
            ({ env with unlinkOk := b } : OpEnv).scriptContent s).path,
         opTempPath { env with unlinkOk := b }] (some projectPath) = .ok cr from hr]
    cases b <;> rfl
  have henvEta : ({ env with unlinkOk := env.unlinkOk } : OpEnv) = env := rfl
  have hmain := hshape env.unlinkOk
  rw [henvEta] at hmain
  refine ⟨?_, ?_, ?_⟩
  · rw [hmain]
  · intro hok
    rw [hmain, hok]
    simp only [if_true]
    exact FS.read_remove_self _ _
  · rw [hshape true, hshape false]

/-- Counterexample to claim C3 as stated: when the Process Runner raises
(here a rejection carrying no captured output), `runGodotOperation`
propagates before reaching the cleanup line, the unlink is never
attempted, and the temp request file still exists afterwards. -/
theorem claim_C3_counterexample :
    (runGodotOperation opEnvSilentFail opsState0 "/proj" "get_scene_tree" []).unlinkAttempted
      = false
    ∧ ((runGodotOperation opEnvSilentFail opsState0 "/proj" "get_scene_tree" []).state.fs.read
        (opTempPath opEnvSilentFail)).isSome = true
    ∧ (runGodotOperation opEnvSilentFail opsState0 "/proj" "get_scene_tree" []).result
      = .error (.spawn ⟨true, some "", some ""⟩) :=
  ⟨rfl, rfl, rfl⟩

/-- Witness for claim C3: a returning run triggers the unlink, the temp
file is gone, and the result does not depend on whether the unlink
succeeded. -/
theorem claim_C3_witness :
    (runGodotOperation opEnvOk opsState0 "/proj" "get_scene_tree" []).unlinkAttempted = true
    ∧ (opEnvOk.unlinkOk = true →
        (runGodotOperation opEnvOk opsState0 "/proj" "get_scene_tree" []).state.fs.read
          (opTempPath opEnvOk) = none)
    ∧ (runGodotOperation { opEnvOk with unlinkOk := true } opsState0
          "/proj" "get_scene_tree" []).result
      = (runGodotOperation { opEnvOk with unlinkOk := false } opsState0
          "/proj" "get_scene_tree" []).result :=
  claim_C3 opEnvOk opsState0 "/proj" "get_scene_tree" [] "/godot" ⟨"out", ""⟩ rfl rfl

/-- Claim C5: every successful `runProject` leaves exactly the new handle
in the single slot, and whenever a prior process was running its pid has
been killed — the stop happens synchronously before the new spawn, and
the `Option`-typed slot holds zero or one handles at every point by
construction. -/
theorem claim_C5 (env : LocEnv) (h : ProcHandle) (projectPath : String)
    (s s' : CmdState) (msg : String)
    (hrun : runProject env h projectPath s = .ok (s', msg)) :
    s'.godotProcess = some h
    ∧ (∀ p : ProcHandle, s.godotProcess = some p → p.pid ∈ s'.killed) := by
  unfold runProject at hrun
  split at hrun
  · exact absurd hrun (by simp)
  · rename_i g s1 hig
    have hpres := initGodot_preserves env s g s1 hig
    split at hrun
    · simp only [Except.ok.injEq, Prod.mk.injEq] at hrun
      obtain ⟨hs', _⟩ := hrun
      subst hs'
      refine ⟨rfl, ?_⟩
      intro p hp
      have h1 : s1.godotProcess = some p := hpres.1.trans hp
      simp only [h1, Option.isSome_some, if_true, stopProject]
      rw [hpres.2]
      simp [h1, stopProject]
    · exact absurd hrun (by simp)

/-- Witness for claim C5: starting while process 7 runs installs the new
handle 9 and kills 7. -/
theorem claim_C5_witness :
    (⟨some "/godot", some ⟨9, ""⟩, [7]⟩ : CmdState).godotProcess = some ⟨9, ""⟩
    ∧ (∀ p : ProcHandle, cmdRunning.godotProcess = some p →
        p.pid ∈ (⟨some "/godot", some ⟨9, ""⟩, [7]⟩ : CmdState).killed) :=
  claim_C5 locFound ⟨9, ""⟩ "/proj" cmdRunning ⟨some "/godot", some ⟨9, ""⟩, [7]⟩
    ("Running Godot project: /proj") rfl

/-- Claim C8: when the environment override is set but does not exist,
`findGodotPath` ignores it and behaves exactly as the static-list check
followed by the `which` fallback; every path it returns exists on the
filesystem; and when both remaining strategies fail it returns `none`
rather than raising. -/
theorem claim_C8 (env : LocEnv) (p : String)
    (h1 : env.godotPathEnv = some p) (h2 : env.fsExists p = false) :
    findGodotPath env =
      (match staticCheck env with
       | some q => some q
       | none => whichCheck env)
    ∧ (∀ q, findGodotPath env = some q → env.fsExists q = true)
    ∧ (staticCheck env = none → whichCheck env = none → findGodotPath env = none) := by
  have henv : envCheck env = none := by
    unfold envCheck
    rw [h1]
    by_cases hp : p != ""
    · simp [hp, h2]
    · simp [hp]
  have hfall : findGodotPath env =
      (match staticCheck env with
       | some q => some q
       | none => whichCheck env) := by
    unfold findGodotPath
    rw [henv]
  refine ⟨hfall, ?_, ?_⟩
  · intro q hq
    rw [hfall] at hq
    cases hs : staticCheck env with
    | some r =>
      rw [hs] at hq
      simp only [Option.some.injEq] at hq
      subst hq
      unfold staticCheck at hs
      exact List.find?_some hs
    | none =>
      rw [hs] at hq
      simp only [] at hq
      unfold whichCheck at hq
      split at hq
      · split at hq
        · rename_i out hout
          simp only [] at hq
          split at hq
          · rename_i hcond
            simp only [Option.some.injEq] at hq
            subst hq
            exact (Bool.and_eq_true _ _).mp hcond |>.2
          · exact absurd hq (by simp)
        · exact absurd hq (by simp)
      · exact absurd hq (by simp)
  · intro hs hw
    rw [hfall, hs, hw]

/-- Witness for claim C8: with a dead override on Linux the locator falls
through to the static list and returns the existing `/usr/bin/godot`. -/
theorem claim_C8_witness :
    findGodotPath locOverrideDead =
      (match staticCheck locOverrideDead with
       | some q => some q
       | none => whichCheck locOverrideDead)
    ∧ (∀ q, findGodotPath locOverrideDead = some q →
        locOverrideDead.fsExists q = true)
    ∧ (staticCheck locOverrideDead = none → whichCheck locOverrideDead = none →
        findGodotPath locOverrideDead = none) :=
  claim_C8 locOverrideDead "/nope" rfl rfl

/-- Claim C9: from an empty cache one call writes the script at the fixed
path `tmpdir/godot_operations.gd` and a second call returns the same path
with the state untouched and no second write — materialization is
idempotent within the process lifetime. -/
theorem claim_C9 (tmpdir content : String) (s0 : OpsState)
    (h : s0.gdScriptPath = none) :
    (initOperationsScript tmpdir content s0).path = joinPath tmpdir "godot_operations.gd"
    ∧ (initOperationsScript tmpdir content s0).wrote = true
    ∧ (initOperationsScript tmpdir content s0).state.fs.read
        (joinPath tmpdir "godot_operations.gd") = some (JsVal.str content)
    ∧ initOperationsScript tmpdir content ((initOperationsScript tmpdir content s0).state)
      = ⟨(initOperationsScript tmpdir content s0).path,
         (initOperationsScript tmpdir content s0).state, false⟩ := by
  have h1 : initOperationsScript tmpdir content s0 =
      ⟨joinPath tmpdir "godot_operations.gd",
       { gdScriptPath := some (joinPath tmpdir "godot_operations.gd"),
         fs := s0.fs.write (joinPath tmpdir "godot_operations.gd") (JsVal.str content) },
       true⟩ := by
    unfold initOperationsScript
    rw [h]
  rw [h1]
  exact ⟨rfl, rfl, FS.read_write_self _ _ _, rfl⟩

/-- Witness for claim C9 at a concrete temp directory, content and empty
initial state. -/
theorem claim_C9_witness :
    (initOperationsScript "/tmp" "abc" opsState0).path = joinPath "/tmp" "godot_operations.gd"
    ∧ (initOperationsScript "/tmp" "abc" opsState0).wrote = true
    ∧ (initOperationsScript "/tmp" "abc" opsState0).state.fs.read
        (joinPath "/tmp" "godot_operations.gd") = some (JsVal.str "abc")
    ∧ initOperationsScript "/tmp" "abc" ((initOperationsScript "/tmp" "abc" opsState0).state)
      = ⟨(initOperationsScript "/tmp" "abc" opsState0).path,
         (initOperationsScript "/tmp" "abc" opsState0).state, false⟩ :=
  claim_C9 "/tmp" "abc" opsState0 rfl

end GodotMcp
